import Mathlib

/-!
Verification of the tree-rendering logic of `directory_tree.py`.

The embedding models the program on a POSIX-style filesystem:

* A directory is a finite rose tree `Dir` (name, subdirectories in the order
  the operating system reports them, file names in reported order).  Entry
  names produced by a real directory listing never contain the separator
  character `/`; concrete inputs below respect this.
* Paths are `String`s; `os.sep` is `'/'`.
* Python string primitives used by the program (`str.replace`, `str.count`,
  `os.path.basename`) are re-implemented character-exactly below.
* `list.sort()` is Python's stable lexicographic sort (code-point order on
  strings); it is modelled by a stable insertion sort with a code-point
  comparator, which produces the same list as any stable sort by the same
  key.
-/

namespace DirectoryTree

/-- A directory tree as the operating system reports it: `dirs` and `files`
are in raw (filesystem) listing order, exactly what `os.scandir`/`os.walk`
would yield for this directory before any sorting by the program. -/
inductive Dir where
  | mk (name : String) (dirs : List Dir) (files : List String)

/-- The entry name (basename) of the directory. -/
def Dir.name : Dir → String
  | .mk n _ _ => n

/-- The raw subdirectory list. -/
def Dir.dirs : Dir → List Dir
  | .mk _ ds _ => ds

/-- The raw file list. -/
def Dir.files : Dir → List String
  | .mk _ _ fs => fs

/-- Python string comparison `a <= b` on code points (lexicographic). -/
def strLeb : List Char → List Char → Bool
  | [], _ => true
  | _ :: _, [] => false
  | a :: as, b :: bs =>
    if a.toNat < b.toNat then true
    else if b.toNat < a.toNat then false
    else strLeb as bs

/-- Insert `a` into `l` in front of the first element `b` with `a ≤ b`;
the insertion step of a stable insertion sort. -/
def insertSorted (leb : α → α → Bool) (a : α) : List α → List α
  | [] => [a]
  | b :: bs => if leb a b then a :: b :: bs else b :: insertSorted leb a bs

/-- Stable insertion sort; models Python's stable `list.sort()` (any two
stable sorts by the same key agree). -/
def sortBy (leb : α → α → Bool) : List α → List α
  | [] => []
  | a :: as => insertSorted leb a (sortBy leb as)

/-- Comparison of directories by name, as Python's `dirs.sort()` compares
the name strings. -/
def nameLeb (a b : Dir) : Bool := strLeb a.name.toList b.name.toList

/-- The `dirs.sort()` call in `walk_directory` (source line 71). -/
def sortByName (ds : List Dir) : List Dir := sortBy nameLeb ds

theorem perm_insertSorted (leb : α → α → Bool) (a : α) (l : List α) :
    (insertSorted leb a l).Perm (a :: l) := by
  induction l with
  | nil => simp [insertSorted]
  | cons b bs ih =>
    simp only [insertSorted]
    split
    · exact List.Perm.refl _
    · exact (ih.cons b).trans (List.Perm.swap a b bs)

theorem perm_sortBy (leb : α → α → Bool) (l : List α) : (sortBy leb l).Perm l := by
  induction l with
  | nil => exact List.Perm.refl _
  | cons a as ih =>
    exact (perm_insertSorted leb a (sortBy leb as)).trans (ih.cons a)

theorem mem_sortBy {leb : α → α → Bool} {l : List α} {a : α} :
    a ∈ sortBy leb l ↔ a ∈ l :=
  (perm_sortBy leb l).mem_iff

theorem sizeOf_of_perm [SizeOf α] {l l' : List α} (h : l.Perm l') :
    sizeOf l = sizeOf l' := by
  induction h with
  | nil => rfl
  | cons x _ ih => simp only [List.cons.sizeOf_spec, ih]
  | swap x y l => simp only [List.cons.sizeOf_spec]; omega
  | trans _ _ ih1 ih2 => omega

theorem sizeOf_sortByName (ds : List Dir) : sizeOf (sortByName ds) = sizeOf ds :=
  sizeOf_of_perm (perm_sortBy nameLeb ds)

/-- Induction over `Dir` with the hypothesis available for every member of the
subdirectory list. -/
theorem dir_ind {P : Dir → Prop}
    (h : ∀ n ds fs, (∀ c, c ∈ ds → P c) → P (Dir.mk n ds fs)) : ∀ d, P d
  | .mk n ds fs => h n ds fs (fun c hc => dir_ind h c)
termination_by d => sizeOf d
decreasing_by
  have := List.sizeOf_lt_of_mem hc
  simp only [Dir.mk.sizeOf_spec]
  omega

/-- Python `os.path.basename`: the part of the path after the last separator. -/
def basename (s : String) : String :=
  ((s.toList.reverse.takeWhile (fun c => !(c == '/'))).reverse).asString

/-- Python `'|   ' * n`: the indentation unit repeated. -/
def repeatU (n : Nat) : String := String.join (List.replicate n "|   ")

/-- Worker for Python `str.replace`: scans left to right, replacing each
non-overlapping occurrence of `pat` by `rep`.  `fuel` only bounds the
recursion; `s.length` steps always suffice because each step consumes at
least one character of the scanned list (for non-empty `pat`). -/
def pyReplaceFuel (pat rep : List Char) : Nat → List Char → List Char
  | _, [] => []
  | 0, l => l
  | n + 1, c :: cs =>
    if pat.isPrefixOf (c :: cs) then
      rep ++ pyReplaceFuel pat rep n ((c :: cs).drop pat.length)
    else
      c :: pyReplaceFuel pat rep n cs

/-- Python `s.replace(pat, rep)`.  The program only calls it with `rep = ''`;
for an empty `pat` and empty `rep` Python returns `s` unchanged, which the
guard reproduces. -/
def pyReplace (s pat rep : String) : String :=
  match pat.toList with
  | [] => s
  | _ :: _ => (pyReplaceFuel pat.toList rep.toList s.toList.length s.toList).asString

/-- Python `s.count(os.sep)`: number of `/` characters. -/
def countSep (s : String) : Nat := s.toList.count '/'

/-- Source line 85: `level = root.replace(self.root_path, '').count(os.sep)`.
Note this is Python `str.replace`, which deletes EVERY occurrence of the
root path string, not only a leading prefix. -/
def pyLevel (rootPath path : String) : Nat := countSep (pyReplace path rootPath "")

/-- Source lines 87-95: the `indent` string of the directory line.
`pr` is the parent's subdirectory list as re-listed at emission time by
`next(os.walk(parent_path))[1]`, i.e. in RAW filesystem order (that fresh
walk object is never sorted).  The comparison
`root == os.path.join(parent_path, parent_dirs[-1])` holds exactly when the
basename of `root` equals the last entry of that raw listing, because
`os.path.split`/`os.path.join` reassemble `root` from its dirname and any
separator-free entry name.  (On an empty listing Python would raise
IndexError from `parent_dirs[-1]`; that cannot happen for a directory that
was itself produced by listing its parent, and the model then takes the
mid-branch glyph.) -/
def indentFor (rootPath : String) (pr : List String) (path : String) : String :=
  if 0 < pyLevel rootPath path then
    repeatU (pyLevel rootPath path - 1) ++
      (if pr.getLast? = some (basename path) then "└── " else "├── ")
  else ""

/-- In source line 121 (`if not files and not dir:`) the identifier `dir`
is not a local variable: it names the Python builtin function `dir`, and a
function object is always truthy, so `not dir` is always `False`. -/
def pyDirBuiltinTruthy : Bool := true

/-- The `for f in files:` loop of `process_files` (source lines 117-119):
one output line per file not in the ignore list, in yielded order. -/
def fileLines (ign : List String) (subindent : String) : List String → List String
  | [] => []
  | f :: fs =>
    if f ∈ ign then fileLines ign subindent fs
    else (subindent ++ "|   " ++ f) :: fileLines ign subindent fs

/-- Model of `DirectoryTree.process_files` (source lines 107-123), including the
dead trailing branch guarded by `not files and not dir`. -/
def process_files (ign : List String) (files : List String) (level : Nat) :
    List String :=
  fileLines ign (repeatU level) files ++
    (if files.isEmpty && !pyDirBuiltinTruthy then [repeatU level] else [])

/-- Model of `DirectoryTree.process_directory` (source lines 74-105) for one walk
step: `path` is the current directory, `ds` the subdirectory list as passed
in by `walk_directory` (already sorted there), `files` the file list, `pr`
the parent's raw listing used for the branch glyph.  Returns the lines this
call writes. -/
def process_directory (rootPath : String) (ign : List String) (pr : List String)
    (path : String) (ds : List Dir) (files : List String) : List String :=
  if basename path ∈ ign then
    [indentFor rootPath pr path ++ basename path ++ "/",
     indentFor rootPath pr path ++ "|   ..."]
  else
    (indentFor rootPath pr path ++ basename path ++ "/") ::
      (process_files ign files (pyLevel rootPath path) ++
        (if ds.isEmpty then [] else [repeatU (pyLevel rootPath path) ++ "|"]))

mutual

/-- Model of `walk_directory` (source lines 62-72) restricted to the subtree rooted
at `path`: `os.walk(..., topdown=True)` yields `path` first; the loop body
sorts the subdirectory list in place (so descent follows sorted order) and
calls `process_directory`; when the directory's basename is in the ignore
list, `process_directory` clears the list (`dirs[:] = []`), so `os.walk`
descends into no child.  `pr` is the raw listing of `path`'s parent (what a
fresh `next(os.walk(parent))[1]` returns on the unchanged filesystem). -/
def walkFrom (rootPath : String) (ign : List String) (pr : List String)
    (path : String) : Dir → List String
  | .mk _ ds files =>
    process_directory rootPath ign pr path (sortByName ds) files ++
      (if basename path ∈ ign then []
       else walkChildren rootPath ign (ds.map Dir.name) path (sortByName ds))
termination_by d => sizeOf d
decreasing_by
  simp only [Dir.mk.sizeOf_spec]
  rw [sizeOf_sortByName]
  omega

/-- Descent of `os.walk` into the (sorted) children, left to right. -/
def walkChildren (rootPath : String) (ign : List String) (pr : List String)
    (path : String) : List Dir → List String
  | [] => []
  | c :: rest =>
    walkFrom rootPath ign pr (path ++ "/" ++ c.name) c ++
      walkChildren rootPath ign pr path rest
termination_by ds => sizeOf ds
decreasing_by
  all_goals simp only [List.cons.sizeOf_spec] <;> omega

end

mutual

/-- The sequence of directory paths `walk_directory` processes, in
processing order (same traversal as `walkFrom`, keeping only the visit
order). -/
def visitedFrom (ign : List String) (path : String) : Dir → List String
  | .mk _ ds _ =>
    path :: (if basename path ∈ ign then []
             else visitedChildren ign path (sortByName ds))
termination_by d => sizeOf d
decreasing_by
  simp only [Dir.mk.sizeOf_spec]
  rw [sizeOf_sortByName]
  omega

/-- Visit order of the children, left to right. -/
def visitedChildren (ign : List String) (path : String) : List Dir → List String
  | [] => []
  | c :: rest =>
    visitedFrom ign (path ++ "/" ++ c.name) c ++ visitedChildren ign path rest
termination_by ds => sizeOf ds
decreasing_by
  all_goals simp only [List.cons.sizeOf_spec] <;> omega

end

/-- The constructor arguments of `DirectoryTree.__init__` that the render
consults (source lines 15-33).  `root_path` is already absolute (the model
takes `os.path.abspath` as given). -/
structure Config where
  root_path : String
  output_file : Option String
  follow_symlinks : Bool
  safe_mode : Bool
  ignore_list : List String

/-- The `Config` obtained by replacing the safe-mode flag. -/
def setSafeMode (cfg : Config) (b : Bool) : Config :=
  ⟨cfg.root_path, cfg.output_file, cfg.follow_symlinks, b, cfg.ignore_list⟩

/-- The aspects of the operating system a single render observes:
whether listing the root path succeeds and, if so, the tree it yields
(symlink expansion already folded into the tree), whether opening the
output destination succeeds, and whether the destination fails while
being written: `writeFailsAt = some k` means the destination's `k`-th
`write` call (0-based) raises `OSError` — e.g. the disk fills or the
stream closes mid-render — while `none` means every write succeeds. -/
structure World where
  rootListing : Option Dir
  outputOpens : Bool
  writeFailsAt : Option Nat

/-- The `OSError`/`IOError` raised by `open` in `open_output_file` or by a
failing `output.write` call. -/
inductive PyError where
  | ioError
deriving DecidableEq

/-- Model of `open_output_file` (source lines 49-60): opening a file destination can
raise; the stdout branch only reconfigures the encoding. -/
def open_output_file (cfg : Config) (w : World) : Except PyError Unit :=
  match cfg.output_file with
  | some _ => if w.outputOpens then Except.ok () else Except.error PyError.ioError
  | none => Except.ok ()

/-- Model of `walk_directory` (source lines 62-72) over the whole walk.  When the
root path cannot be listed (missing directory, permission denied),
`os.walk` calls `onerror` — which defaults to `None` — and simply yields
no step at all: the loop body never runs and NO exception reaches the
caller. -/
def walk_directory (cfg : Config) (w : World) : List String :=
  match w.rootListing with
  | none => []
  | some d => walkFrom cfg.root_path cfg.ignore_list [] cfg.root_path d

/-- Model of `generate_tree` (source lines 35-47): open the destination
(open errors propagate), then walk, writing one line per `output.write`
call as the walk proceeds.  The traversal itself never consults a write's
result, so the destination's `k`-th write is reached exactly when the walk
produces more than `k` lines; if that write raises, the `OSError`
propagates out of `walk_directory` and through `generate_tree`'s `finally`
(which only closes a file destination, then re-raises) to the caller, the
earlier lines having already been written — no salvage.  On success the
result is the full sequence of written lines. -/
def generate_tree (cfg : Config) (w : World) : Except PyError (List String) :=
  match open_output_file cfg w with
  | Except.error e => Except.error e
  | Except.ok _ =>
    match w.writeFailsAt with
    | some k =>
      if k < (walk_directory cfg w).length then Except.error PyError.ioError
      else Except.ok (walk_directory cfg w)
    | none => Except.ok (walk_directory cfg w)

/-- Modelled from the spec's words (§3 Depth): "the count of path-separator
characters in the suffix of the current directory path after removing the
root-path prefix".  Used only to compare the spec's depth with the
program's `pyLevel`. -/
def specDepth (rootPath path : String) : Nat :=
  (path.toList.drop rootPath.toList.length).count '/'

/-- Whether `pat` occurs as a contiguous substring of `l` (Python `pat in s`);
recursion mirrors scanning every start position. -/
def occursB (pat : List Char) : List Char → Bool
  | [] => pat.isEmpty
  | c :: cs => pat.isPrefixOf (c :: cs) || occursB pat cs

mutual

/-- Spec-side canonical tree: every subdirectory list sorted
lexicographically by name (stably), at every level. -/
def sortTree : Dir → Dir
  | .mk n ds fs => .mk n (sortByName (sortForest ds)) fs

/-- Map of `sortTree` over every member. -/
def sortForest : List Dir → List Dir
  | [] => []
  | d :: rest => sortTree d :: sortForest rest

end

mutual

/-- Spec-side textbook depth-first pre-order traversal with pruning at
ignored basenames: list the directory, then its children in the order they
appear, each recursively. -/
def preorderFrom (ign : List String) (path : String) : Dir → List String
  | .mk _ ds _ =>
    path :: (if basename path ∈ ign then []
             else preorderForest ign path ds)

/-- Pre-order traversal of a list of sibling subtrees, left to right. -/
def preorderForest (ign : List String) (path : String) : List Dir → List String
  | [] => []
  | c :: rest =>
    preorderFrom ign (path ++ "/" ++ c.name) c ++ preorderForest ign path rest

end

/-! Unfolding equations for the well-founded recursive definitions, in
`attach`-free form, and basic structural lemmas. -/

theorem walkFrom_mk (rootPath : String) (ign : List String) (pr : List String)
    (path : String) (n : String) (ds : List Dir) (files : List String) :
    walkFrom rootPath ign pr path (.mk n ds files) =
      process_directory rootPath ign pr path (sortByName ds) files ++
        (if basename path ∈ ign then []
         else walkChildren rootPath ign (ds.map Dir.name) path (sortByName ds)) := by
  rw [walkFrom]

theorem walkChildren_nil (rootPath : String) (ign : List String) (pr : List String)
    (path : String) : walkChildren rootPath ign pr path [] = [] := by
  rw [walkChildren]

theorem walkChildren_cons (rootPath : String) (ign : List String) (pr : List String)
    (path : String) (c : Dir) (rest : List Dir) :
    walkChildren rootPath ign pr path (c :: rest) =
      walkFrom rootPath ign pr (path ++ "/" ++ c.name) c ++
        walkChildren rootPath ign pr path rest := by
  rw [walkChildren]

theorem visitedFrom_mk (ign : List String) (path : String) (n : String)
    (ds : List Dir) (files : List String) :
    visitedFrom ign path (.mk n ds files) =
      path :: (if basename path ∈ ign then []
               else visitedChildren ign path (sortByName ds)) := by
  rw [visitedFrom]

theorem visitedChildren_nil (ign : List String) (path : String) :
    visitedChildren ign path [] = [] := by
  rw [visitedChildren]

theorem visitedChildren_cons (ign : List String) (path : String) (c : Dir)
    (rest : List Dir) :
    visitedChildren ign path (c :: rest) =
      visitedFrom ign (path ++ "/" ++ c.name) c ++ visitedChildren ign path rest := by
  rw [visitedChildren]

theorem sortByName_eq_nil_iff (ds : List Dir) : sortByName ds = [] ↔ ds = [] := by
  constructor
  · intro h
    have hp := perm_sortBy nameLeb ds
    rw [show sortBy nameLeb ds = sortByName ds from rfl, h] at hp
    exact hp.symm.eq_nil
  · intro h
    subst h
    rfl

theorem fileLines_eq (ign : List String) (si : String) (files : List String) :
    fileLines ign si files =
      (files.filter (fun f => decide (f ∉ ign))).map (fun f => si ++ "|   " ++ f) := by
  induction files with
  | nil => rfl
  | cons f fs ih =>
    by_cases h : f ∈ ign
    · simp [fileLines, h, ih]
    · simp [fileLines, h, ih]

theorem process_files_eq (ign : List String) (files : List String) (level : Nat) :
    process_files ign files level =
      (files.filter (fun f => decide (f ∉ ign))).map
        (fun f => repeatU level ++ "|   " ++ f) := by
  simp [process_files, fileLines_eq, pyDirBuiltinTruthy]

theorem string_append_left_cancel {a b c : String} (h : a ++ b = a ++ c) : b = c := by
  have hd : (a ++ b).data = (a ++ c).data := by rw [h]
  simp only [String.data_append] at hd
  have := List.append_cancel_left hd
  cases b
  cases c
  simp_all [String.data]

/-! Lemmas about the stable sort and the canonically sorted tree. -/

theorem sortTree_name (d : Dir) : (sortTree d).name = d.name := by
  cases d
  rfl

theorem sortForest_eq_map (ds : List Dir) : sortForest ds = ds.map sortTree := by
  induction ds with
  | nil => rfl
  | cons d rest ih => simp [sortForest, ih]

theorem nameLeb_sortTree (a b : Dir) : nameLeb (sortTree a) (sortTree b) = nameLeb a b := by
  simp [nameLeb, sortTree_name]

theorem insertSorted_map (f : α → α) (leb : α → α → Bool)
    (hcomp : ∀ a b, leb (f a) (f b) = leb a b) (a : α) (l : List α) :
    insertSorted leb (f a) (l.map f) = (insertSorted leb a l).map f := by
  induction l with
  | nil => rfl
  | cons b bs ih =>
    simp only [List.map_cons, insertSorted, hcomp]
    by_cases h : leb a b
    · simp [h]
    · simp [h, ih]

theorem sortBy_map (f : α → α) (leb : α → α → Bool)
    (hcomp : ∀ a b, leb (f a) (f b) = leb a b) (l : List α) :
    sortBy leb (l.map f) = (sortBy leb l).map f := by
  induction l with
  | nil => rfl
  | cons a as ih =>
    simp only [List.map_cons, sortBy, ih]
    exact insertSorted_map f leb hcomp a (sortBy leb as)

theorem sortByName_map_sortTree (ds : List Dir) :
    sortByName (ds.map sortTree) = (sortByName ds).map sortTree :=
  sortBy_map sortTree nameLeb nameLeb_sortTree ds

/-! Lemmas about the Python `str.replace` model, used to relate the
program's depth computation to the spec's prefix-strip description. -/

theorem isPrefixOf_append_self (pat l : List Char) :
    pat.isPrefixOf (pat ++ l) = true := by
  induction pat with
  | nil => simp [List.isPrefixOf]
  | cons p ps ih => simp [List.isPrefixOf, ih]

theorem pyReplaceFuel_no_occurrence {pat : List Char} (rep : List Char)
    {l : List Char} (h : occursB pat l = false) :
    ∀ fuel, pyReplaceFuel pat rep fuel l = l := by
  induction l with
  | nil =>
    intro fuel
    cases fuel <;> rfl
  | cons c cs ih =>
    intro fuel
    simp only [occursB, Bool.or_eq_false_iff] at h
    cases fuel with
    | zero => rfl
    | succ n =>
      simp only [pyReplaceFuel, h.1, Bool.false_eq_true, if_false]
      rw [ih (by simpa [occursB] using h.2) n]

theorem pyReplaceFuel_strip (p : Char) (ps l : List Char)
    (hocc : occursB (p :: ps) l = false) :
    pyReplaceFuel (p :: ps) [] ((ps ++ l).length + 1) (p :: (ps ++ l)) = l := by
  have hpre : (p :: ps).isPrefixOf (p :: (ps ++ l)) = true := by
    have := isPrefixOf_append_self (p :: ps) l
    simpa using this
  rw [pyReplaceFuel]
  simp only [hpre, if_true, List.nil_append]
  have hdrop : (p :: (ps ++ l)).drop (p :: ps).length = l := by
    have := List.drop_left (p :: ps) l
    simpa using this
  rw [hdrop, pyReplaceFuel_no_occurrence _ hocc]

theorem pyReplace_strip {pat sfx : String} (hne : pat.toList ≠ [])
    (hocc : occursB pat.toList sfx.toList = false) :
    pyReplace (pat ++ sfx) pat "" = sfx := by
  rcases hl : pat.toList with _ | ⟨p, ps⟩
  · exact absurd hl hne
  · have hdata : (pat ++ sfx).toList = p :: (ps ++ sfx.toList) := by
      have h1 : (pat ++ sfx).toList = pat.toList ++ sfx.toList :=
        String.data_append pat sfx
      rw [h1, hl]
      rfl
    rw [pyReplace.eq_def]
    simp only [hl, hdata]
    have hlen : (p :: (ps ++ sfx.toList)).length = (ps ++ sfx.toList).length + 1 := by
      simp
    rw [hlen]
    have hrep : ("".toList : List Char) = [] := rfl
    rw [hrep, pyReplaceFuel_strip p ps sfx.toList (by rw [← hl]; exact hocc)]
    cases sfx
    rfl

theorem pyLevel_strip {rootPath sfx : String} (hne : rootPath.toList ≠ [])
    (hocc : occursB rootPath.toList sfx.toList = false) :
    pyLevel rootPath (rootPath ++ sfx) = countSep sfx := by
  rw [pyLevel, pyReplace_strip hne hocc]

theorem specDepth_append (rootPath sfx : String) :
    specDepth rootPath (rootPath ++ sfx) = countSep sfx := by
  rw [specDepth, countSep]
  have hdata : (rootPath ++ sfx).toList = rootPath.toList ++ sfx.toList := by
    simp [String.toList, String.data_append]
  rw [hdata, List.drop_left]

/-! The claims. -/

/-- Claim C4: the traversal is depth-first pre-order starting at the root,
and every visited directory's immediate subdirectories are visited in
stable lexicographic order by name regardless of the raw order the walk
primitive reports: the visit order of the program's walk equals the
textbook pre-order traversal of the tree whose subdirectory lists have all
been stably sorted by name. -/
theorem c4_traversal_preorder_sorted (ign : List String) (path : String) (d : Dir) :
    visitedFrom ign path d = preorderFrom ign path (sortTree d) := by
  refine dir_ind
    (P := fun d => ∀ path, visitedFrom ign path d = preorderFrom ign path (sortTree d))
    (fun n ds fs ih path => ?_) d path
  rw [visitedFrom_mk]
  have hs : sortTree (Dir.mk n ds fs) = Dir.mk n (sortByName (sortForest ds)) fs := rfl
  rw [hs, preorderFrom]
  by_cases hmem : basename path ∈ ign
  · simp [hmem]
  · simp only [hmem, if_false]
    rw [sortForest_eq_map, sortByName_map_sortTree]
    have hsub : ∀ c, c ∈ sortByName ds → ∀ p,
        visitedFrom ign p c = preorderFrom ign p (sortTree c) :=
      fun c hc => ih c (mem_sortBy.mp hc)
    congr 1
    generalize sortByName ds = l at hsub ⊢
    induction l with
    | nil => simp [visitedChildren_nil, preorderForest]
    | cons c rest ihl =>
      rw [visitedChildren_cons, List.map_cons, preorderForest,
        hsub c (List.mem_cons_self c rest) (path ++ "/" ++ c.name), sortTree_name]
      rw [ihl (fun c hc p => hsub c (List.mem_cons_of_mem _ hc) p)]

/-- Claim C5: for a non-ignored visited directory at (program-computed)
depth `d`, the continuation line `'|   ' * d ++ '|'` is emitted directly
after its file lines exactly when the pre-ignore-check subdirectory list is
non-empty, and for a directory with zero subdirectories the emitted block
is exactly the directory line followed by the file lines — no continuation
line, regardless of the number of files. -/
theorem c5_continuation_bar (rootPath : String) (ign : List String)
    (pr : List String) (path : String) (n : String) (ds : List Dir)
    (files : List String) (h : basename path ∉ ign) :
    (ds ≠ [] → walkFrom rootPath ign pr path (.mk n ds files) =
      ((indentFor rootPath pr path ++ basename path ++ "/") ::
        (process_files ign files (pyLevel rootPath path) ++
          [repeatU (pyLevel rootPath path) ++ "|"])) ++
        walkChildren rootPath ign (ds.map Dir.name) path (sortByName ds)) ∧
    (ds = [] → walkFrom rootPath ign pr path (.mk n ds files) =
      (indentFor rootPath pr path ++ basename path ++ "/") ::
        process_files ign files (pyLevel rootPath path)) := by
  constructor
  · intro hne
    rw [walkFrom_mk, process_directory]
    have hempty : (sortByName ds).isEmpty = false := by
      rcases he : sortByName ds with _ | ⟨c, rest⟩
      · exact absurd ((sortByName_eq_nil_iff ds).mp he) hne
      · rfl
    simp [h, hempty]
  · intro he
    subst he
    rw [walkFrom_mk, process_directory]
    have hnil : sortByName ([] : List Dir) = [] := rfl
    simp [h, hnil, walkChildren_nil]

/-- Claim C6: a visited directory whose basename is in the ignore set emits
exactly its directory line followed by the single placeholder line
`indent ++ "|   ..."` — no file lines, no descendant lines — and none of
its descendants is visited; and (second conjunct) a directory's
subdirectory list triggers the parent's continuation bar by mere
non-emptiness, so subdirectories that will themselves be ignored still
count for that decision. -/
theorem c6_ignored_directory :
    (∀ rootPath ign pr path n ds files, basename path ∈ ign →
      walkFrom rootPath ign pr path (.mk n ds files) =
        [indentFor rootPath pr path ++ basename path ++ "/",
         indentFor rootPath pr path ++ "|   ..."] ∧
      visitedFrom ign path (.mk n ds files) = [path]) ∧
    (∀ rootPath ign pr path n ds files, basename path ∉ ign → ds ≠ [] →
      (repeatU (pyLevel rootPath path) ++ "|") ∈
        walkFrom rootPath ign pr path (.mk n ds files)) := by
  constructor
  · intro rootPath ign pr path n ds files hmem
    constructor
    · rw [walkFrom_mk, process_directory]
      simp [hmem]
    · rw [visitedFrom_mk]
      simp [hmem]
  · intro rootPath ign pr path n ds files hmem hne
    rw [walkFrom_mk, process_directory]
    have hempty : (sortByName ds).isEmpty = false := by
      rcases he : sortByName ds with _ | ⟨c, rest⟩
      · exact absurd ((sortByName_eq_nil_iff ds).mp he) hne
      · rfl
    simp [hmem, hempty]

/-- Claim C7: file ignoring is exact basename equality: a file of a
non-ignored directory gets an output line exactly when its exact name is
not in the ignore set, and removing an ignored file from the listing
leaves the lines produced for the other files unchanged. -/
theorem c7_file_ignore_exact :
    (∀ (ign : List String) (level : Nat) (files : List String) (f : String),
      f ∈ files →
      ((repeatU level ++ "|   " ++ f) ∈ process_files ign files level ↔ f ∉ ign)) ∧
    (∀ (ign : List String) (level : Nat) (f : String) (pre post : List String),
      f ∈ ign →
      process_files ign (pre ++ f :: post) level =
        process_files ign (pre ++ post) level) := by
  constructor
  · intro ign level files f hf
    rw [process_files_eq]
    constructor
    · intro hline
      rcases List.mem_map.mp hline with ⟨g, hg, hlineg⟩
      rcases List.mem_filter.mp hg with ⟨-, hgn⟩
      have : g = f := by
        have h1 : repeatU level ++ "|   " ++ g = repeatU level ++ ("|   " ++ g) := by
          rw [String.append_assoc]
        have h2 : repeatU level ++ "|   " ++ f = repeatU level ++ ("|   " ++ f) := by
          rw [String.append_assoc]
        have h3 := hlineg
        rw [h1, h2] at h3
        have h4 := string_append_left_cancel h3
        exact string_append_left_cancel h4
      subst this
      simpa using hgn
    · intro hnot
      exact List.mem_map.mpr ⟨f, List.mem_filter.mpr ⟨hf, by simpa using hnot⟩, rfl⟩
  · intro ign level f pre post hf
    rw [process_files_eq, process_files_eq]
    have : (pre ++ f :: post).filter (fun g => decide (g ∉ ign)) =
        (pre ++ post).filter (fun g => decide (g ∉ ign)) := by
      simp [List.filter_append, List.filter_cons, hf]
    rw [this]

/-- Claim C9: the safe-mode flag is stored but never consulted: two
configurations differing only in `safe_mode` produce identical results on
every world (same output lines, same error behavior). -/
theorem c9_safe_mode_inert (cfg : Config) (w : World) (b1 b2 : Bool) :
    generate_tree (setSafeMode cfg b1) w = generate_tree (setSafeMode cfg b2) w := rfl

/-- Claim C10: `process_files` emits exactly one line per non-ignored file,
in yielded order, and nothing else; the trailing `not files and not dir`
branch never fires because `dir` names the always-truthy Python builtin, so
even an empty file list yields no output line. -/
theorem c10_process_files_lines (ign : List String) (files : List String)
    (level : Nat) :
    process_files ign files level =
      (files.filter (fun f => decide (f ∉ ign))).map
        (fun f => repeatU level ++ "|   " ++ f) ∧
    process_files ign [] level = [] ∧ pyDirBuiltinTruthy = true :=
  ⟨process_files_eq ign files level, process_files_eq ign [] level, rfl⟩

/-- Claim C1 (counterexample): glyph selection does NOT follow
lexicographic order.  The parent of `a` and `b` reports them in raw order
`[b, a]`; `b` is the lexicographically last sibling (`"a" ≤ "b"`, second
conjunct), yet the rendered output gives `a` the last-branch glyph and `b`
the mid-branch glyph, because line 90 re-lists the parent WITHOUT sorting
and line 92 compares against the last entry of that raw listing. -/
theorem c1_counterexample :
    walkFrom "/r" [] [] "/r"
        (Dir.mk "r" [Dir.mk "b" [] [], Dir.mk "a" [] []] []) =
      ["r/", "|", "└── a/", "├── b/"] ∧
    strLeb "a".toList "b".toList = true := by
  constructor
  · simp [walkFrom, walkChildren, process_directory, process_files, fileLines,
      indentFor, pyLevel, pyReplace, pyReplaceFuel, countSep, basename, repeatU,
      sortByName, sortBy, insertSorted, nameLeb, strLeb, Dir.name,
      pyDirBuiltinTruthy]
    decide
  · decide

/-- Claim C1 (amended): for every directory emitted with program depth
`d > 0`, the branch glyph appended to the indentation is the last-branch
glyph exactly when the directory's basename equals the LAST entry of the
parent's re-listed subdirectory list in the raw order the walk primitive
reports it (which is not sorted), and the mid-branch glyph otherwise. -/
theorem c1_branch_glyph_raw_last (rootPath : String) (ign : List String)
    (pr : List String) (path : String) (n : String) (ds : List Dir)
    (files : List String) (h : 0 < pyLevel rootPath path) :
    (walkFrom rootPath ign pr path (.mk n ds files)).head? =
      some (repeatU (pyLevel rootPath path - 1) ++
        (if pr.getLast? = some (basename path) then "└── " else "├── ") ++
        basename path ++ "/") := by
  rw [walkFrom_mk, process_directory]
  by_cases hmem : basename path ∈ ign
  · simp [hmem, indentFor, h]
  · simp [hmem, indentFor, h]

/-- Claim C2 (counterexample): an untraversable root path does NOT make the
render fail.  With a missing root (`rootListing = none`) and a writable
stdout destination, `generate_tree` returns successfully with EMPTY output:
`os.walk`'s default `onerror=None` swallows the listing error and yields no
step, so no filesystem error propagates. -/
theorem c2_counterexample :
    generate_tree ⟨"/missing", none, false, true, []⟩ ⟨none, true, none⟩ =
      Except.ok [] := rfl

/-- Claim C2 (amended): `generate_tree` fails with a propagated IOError
when a file destination cannot be opened, and likewise when the
destination fails while being written (a write that the walk reaches
raises, and the error propagates to the caller, the earlier lines having
already been written); but when the root path cannot be traversed, no
error is raised at all — the walk yields nothing, so nothing is even
written, and the render completes successfully with empty output. -/
theorem c2_error_behavior :
    (∀ (cfg : Config) (w : World), cfg.output_file.isSome = true →
      w.outputOpens = false →
      generate_tree cfg w = Except.error PyError.ioError) ∧
    (∀ (cfg : Config) (w : World) (k : Nat),
      open_output_file cfg w = Except.ok () →
      w.writeFailsAt = some k → k < (walk_directory cfg w).length →
      generate_tree cfg w = Except.error PyError.ioError) ∧
    (∀ (cfg : Config) (w : World), open_output_file cfg w = Except.ok () →
      w.rootListing = none →
      generate_tree cfg w = Except.ok []) := by
  refine ⟨?_, ?_, ?_⟩
  · intro cfg w hdst hopen
    rcases hfile : cfg.output_file with _ | f
    · rw [hfile] at hdst
      simp at hdst
    · simp [generate_tree, open_output_file, hfile, hopen]
  · intro cfg w k hopen hfail hreach
    simp [generate_tree, hopen, hfail, hreach]
  · intro cfg w hopen hroot
    have hempty : walk_directory cfg w = [] := by
      simp [walk_directory, hroot]
    rcases hfail : w.writeFailsAt with _ | k
    · simp [generate_tree, hopen, hfail, hempty]
    · simp [generate_tree, hopen, hfail, hempty]

/-- Claim C3 (counterexample): depth is NOT the separator count of the
suffix after removing the root-path prefix.  `root.replace(root_path, '')`
deletes EVERY occurrence of the root path string, so with root path `/r`
the visited directory `/r/r/x` has program depth 1 (replace-all leaves
`/x`), while the prefix-strip suffix `/r/x` has 2 separators; consequently
its directory line is `└── x/` with empty indentation instead of the
`'|   '`-indented line the claim implies (and `/r/r` is even rendered at
depth 0, as a bare `r/` with no glyph). -/
theorem c3_counterexample :
    pyLevel "/r" "/r/r/x" = 1 ∧ specDepth "/r" "/r/r/x" = 2 ∧
    walkFrom "/r" [] [] "/r"
        (Dir.mk "r" [Dir.mk "r" [Dir.mk "x" [] []] []] []) =
      ["r/", "|", "r/", "|", "└── x/"] := by
  refine ⟨by decide, by decide, ?_⟩
  simp [walkFrom, walkChildren, process_directory, process_files, fileLines,
    indentFor, pyLevel, pyReplace, pyReplaceFuel, countSep, basename, repeatU,
    sortByName, sortBy, insertSorted, nameLeb, strLeb, Dir.name,
    pyDirBuiltinTruthy]
  decide

/-- Claim C3 (amended): the program's depth of a visited directory is the
separator count after deleting every occurrence of the root-path string
(Python `str.replace`), which coincides with the claimed prefix-strip count
whenever the root-path string does not reoccur in the remainder of the
path; under that proviso the directory-line indentation is the unit
`'|   '` repeated `max(d-1, 0)` times (followed by the branch glyph when
`d > 0`). -/
theorem c3_depth_and_indent (rootPath sfx : String) (pr : List String)
    (hne : rootPath.toList ≠ [])
    (hocc : occursB rootPath.toList sfx.toList = false) :
    pyLevel rootPath (rootPath ++ sfx) = specDepth rootPath (rootPath ++ sfx) ∧
    indentFor rootPath pr (rootPath ++ sfx) =
      (if 0 < specDepth rootPath (rootPath ++ sfx) then
        repeatU (specDepth rootPath (rootPath ++ sfx) - 1) ++
          (if pr.getLast? = some (basename (rootPath ++ sfx)) then "└── "
           else "├── ")
       else "") := by
  have h1 : pyLevel rootPath (rootPath ++ sfx) = countSep sfx :=
    pyLevel_strip hne hocc
  have h2 := specDepth_append rootPath sfx
  refine ⟨h1.trans h2.symm, ?_⟩
  rw [indentFor, h1, h2]

/-- Claim C8: on the spec's own test scenario (root with subdirectories
`dir1` and `dir2`, no root files, `dir1` holding `file1.txt`, `dir2`
empty) the program does NOT produce the five lines the spec and the
repository's own test `test_directory_indentation_and_branching` expect:
it emits branch glyphs on the depth-1 directory lines and a doubled
`|   |   ` indent on the file line. -/
theorem c8_scenario_eval :
    walk_directory ⟨"/root", none, false, true, []⟩
        ⟨some (Dir.mk "root" [Dir.mk "dir1" [] ["file1.txt"],
          Dir.mk "dir2" [] []] []), true, none⟩ =
      ["root/", "|", "├── dir1/", "|   |   file1.txt", "└── dir2/"] ∧
    walk_directory ⟨"/root", none, false, true, []⟩
        ⟨some (Dir.mk "root" [Dir.mk "dir1" [] ["file1.txt"],
          Dir.mk "dir2" [] []] []), true, none⟩ ≠
      ["root/", "|", "dir1/", "|   file1.txt", "dir2/"] := by
  have h : walk_directory ⟨"/root", none, false, true, []⟩
      ⟨some (Dir.mk "root" [Dir.mk "dir1" [] ["file1.txt"],
        Dir.mk "dir2" [] []] []), true, none⟩ =
      ["root/", "|", "├── dir1/", "|   |   file1.txt", "└── dir2/"] := by
    simp [walk_directory, walkFrom, walkChildren, process_directory,
      process_files, fileLines, indentFor, pyLevel, pyReplace, pyReplaceFuel,
      countSep, basename, repeatU, sortByName, sortBy, insertSorted, nameLeb,
      strLeb, Dir.name, pyDirBuiltinTruthy]
    decide
  refine ⟨h, ?_⟩
  rw [h]
  decide

/-! Witnesses: each hypothesis-bearing claim theorem applied at a concrete
input with its hypotheses discharged there. -/

/-- Witness for the amended C1 at the directory `/r/a` whose parent's raw
listing is `["b", "a"]`. -/
theorem c1_branch_glyph_raw_last_witness :
    0 < pyLevel "/r" "/r/a" ∧
    (walkFrom "/r" [] ["b", "a"] "/r/a" (Dir.mk "a" [] [])).head? =
      some (repeatU (pyLevel "/r" "/r/a" - 1) ++
        (if (["b", "a"] : List String).getLast? = some (basename "/r/a")
         then "└── " else "├── ") ++
        basename "/r/a" ++ "/") :=
  ⟨by decide,
   c1_branch_glyph_raw_last "/r" [] ["b", "a"] "/r/a" "a" [] [] (by decide)⟩

/-- Witness for the amended C2: a file destination that fails to open
yields the propagated IOError; a destination whose very first write fails
under a one-line walk also yields the propagated IOError; and a missing
root with a fully usable destination yields successful empty output. -/
theorem c2_error_behavior_witness :
    (Config.mk "/r" (some "t.txt") false true []).output_file.isSome = true ∧
    0 < (walk_directory ⟨"/r", none, false, true, []⟩
      ⟨some (Dir.mk "r" [] []), true, some 0⟩).length ∧
    generate_tree ⟨"/r", some "t.txt", false, true, []⟩ ⟨none, false, none⟩ =
      Except.error PyError.ioError ∧
    generate_tree ⟨"/r", none, false, true, []⟩
        ⟨some (Dir.mk "r" [] []), true, some 0⟩ =
      Except.error PyError.ioError ∧
    generate_tree ⟨"/r", none, false, true, []⟩ ⟨none, true, none⟩ =
      Except.ok [] :=
  have hlen : 0 < (walk_directory ⟨"/r", none, false, true, []⟩
      ⟨some (Dir.mk "r" [] []), true, some 0⟩).length := by
    simp [walk_directory, walkFrom, walkChildren, process_directory,
      process_files, fileLines, indentFor, pyLevel, pyReplace, pyReplaceFuel,
      countSep, basename, repeatU, sortByName, sortBy, insertSorted, nameLeb,
      strLeb, Dir.name, pyDirBuiltinTruthy]
  ⟨rfl, hlen, c2_error_behavior.1 _ _ rfl rfl,
   c2_error_behavior.2.1 _ _ 0 rfl rfl hlen,
   c2_error_behavior.2.2 _ _ rfl rfl⟩

/-- Witness for the amended C3 at root path `/home/u` and suffix `/a/b`,
where the root path string does not reoccur in the suffix. -/
theorem c3_depth_and_indent_witness :
    ("/home/u" : String).toList ≠ [] ∧
    occursB ("/home/u" : String).toList ("/a/b" : String).toList = false ∧
    (pyLevel "/home/u" ("/home/u" ++ "/a/b") =
        specDepth "/home/u" ("/home/u" ++ "/a/b") ∧
      indentFor "/home/u" ["x"] ("/home/u" ++ "/a/b") =
        (if 0 < specDepth "/home/u" ("/home/u" ++ "/a/b") then
          repeatU (specDepth "/home/u" ("/home/u" ++ "/a/b") - 1) ++
            (if (["x"] : List String).getLast? =
                some (basename ("/home/u" ++ "/a/b")) then "└── "
             else "├── ")
         else "")) :=
  ⟨by decide, by decide,
   c3_depth_and_indent "/home/u" "/a/b" ["x"] (by decide) (by decide)⟩

/-- Witness for C5 at a non-ignored root with one subdirectory and one
file. -/
theorem c5_continuation_bar_witness :
    basename "/r" ∉ ([] : List String) ∧
    walkFrom "/r" [] [] "/r" (Dir.mk "r" [Dir.mk "a" [] []] ["f"]) =
      ((indentFor "/r" [] "/r" ++ basename "/r" ++ "/") ::
        (process_files [] ["f"] (pyLevel "/r" "/r") ++
          [repeatU (pyLevel "/r" "/r") ++ "|"])) ++
        walkChildren "/r" [] ([Dir.mk "a" [] []].map Dir.name) "/r"
          (sortByName [Dir.mk "a" [] []]) :=
  ⟨by decide,
   (c5_continuation_bar "/r" [] [] "/r" "r" [Dir.mk "a" [] []] ["f"]
     (by decide)).1 (List.cons_ne_nil _ _)⟩

/-- Witness for C6: the ignored directory `/r/g` (which has a subdirectory
and a file) renders as exactly two lines and visits no descendant, and the
parent of a single to-be-ignored subdirectory still emits its continuation
bar. -/
theorem c6_ignored_directory_witness :
    basename "/r/g" ∈ (["g"] : List String) ∧
    basename "/r" ∉ (["g"] : List String) ∧
    (walkFrom "/r" ["g"] [] "/r/g" (Dir.mk "g" [Dir.mk "k" [] []] ["f.txt"]) =
        [indentFor "/r" [] "/r/g" ++ basename "/r/g" ++ "/",
         indentFor "/r" [] "/r/g" ++ "|   ..."] ∧
      visitedFrom ["g"] "/r/g" (Dir.mk "g" [Dir.mk "k" [] []] ["f.txt"]) =
        ["/r/g"]) ∧
    (repeatU (pyLevel "/r" "/r") ++ "|") ∈
      walkFrom "/r" ["g"] [] "/r" (Dir.mk "r" [Dir.mk "g" [] []] []) :=
  ⟨by decide, by decide,
   c6_ignored_directory.1 "/r" ["g"] [] "/r/g" "g" [Dir.mk "k" [] []]
     ["f.txt"] (by decide),
   c6_ignored_directory.2 "/r" ["g"] [] "/r" "r" [Dir.mk "g" [] []] []
     (by decide) (List.cons_ne_nil _ _)⟩

/-- Witness for C7: the non-ignored file `a.txt` gets its line, and
removing the ignored file `b.txt` leaves the other lines unchanged. -/
theorem c7_file_ignore_exact_witness :
    ("a.txt" : String) ∈ (["a.txt", "b.txt"] : List String) ∧
    ("b.txt" : String) ∈ (["b.txt"] : List String) ∧
    ((repeatU 1 ++ "|   " ++ "a.txt") ∈
        process_files ["b.txt"] ["a.txt", "b.txt"] 1 ↔
      "a.txt" ∉ (["b.txt"] : List String)) ∧
    process_files ["b.txt"] (["x.txt"] ++ "b.txt" :: ["y.txt"]) 1 =
      process_files ["b.txt"] (["x.txt"] ++ ["y.txt"]) 1 :=
  ⟨by decide, by decide,
   c7_file_ignore_exact.1 ["b.txt"] 1 ["a.txt", "b.txt"] "a.txt" (by decide),
   c7_file_ignore_exact.2 ["b.txt"] 1 "b.txt" ["x.txt"] ["y.txt"] (by decide)⟩

end DirectoryTree
